import Mathlib

set_option maxRecDepth 10000

/-- Tag dictionaries of OSM map features: an association list from tag key to
tag value, mirroring the Python `dict` of string tags in
`utils/dataset_generator.py`. -/
abbrev Tags := List (String × String)

/-- Embedding of `_tag_equals(tags, key, values=None)`
(src/utils/dataset_generator.py, lines 33-38): false when the key is absent;
true when `values is None`; otherwise membership of the tag value in `values`. -/
def _tag_equals (tags : Tags) (key : String) (values : Option (List String)) : Bool :=
  match tags.lookup key with
  | none => false
  | some v =>
    match values with
    | none => true
    | some vs => vs.contains v

/-- Splits a list of characters at the first occurrence of the character
with code point 46, a full stop.  Helper for the decimal-string parser below;
returns the part before the dot and, when a dot is present, the part after it. -/
def splitDot : List Char → List Char × Option (List Char)
  | [] => ([], none)
  | c :: cs =>
    if c.toNat = 46 then ([], some cs)
    else
      let r := splitDot cs
      (c :: r.1, r.2)

/-- Value of a nonempty string of decimal digits; `none` when the list is
empty or contains a non-digit. -/
def digitsVal (cs : List Char) : Option ℕ :=
  if cs.isEmpty then none
  else
    cs.foldl
      (fun acc c =>
        acc.bind fun n => if c.isDigit then some (10 * n + (c.toNat - 48)) else none)
      (some 0)

/-- Model of Python `float(s)` restricted to the plain decimal literals that
occur as OSM `height` tag values (digits with an optional fractional part),
returning an exact rational.  Anything else is a parse failure (`none`,
standing for Python's `ValueError`). -/
def parseDecimal (s : String) : Option ℚ :=
  match splitDot s.toList with
  | (ip, none) => (digitsVal ip).map (fun n => (n : ℚ))
  | (ip, some fp) =>
    if ip.isEmpty && fp.isEmpty then none
    else
      let ipv := if ip.isEmpty then some 0 else digitsVal ip
      let fpv := if fp.isEmpty then some 0 else digitsVal fp
      match ipv, fpv with
      | some a, some b => some ((a : ℚ) + (b : ℚ) / (10 ^ fp.length))
      | _, _ => none

/-- Model of Python `int(q)` on an exact rational: truncation toward zero. -/
def pyInt (q : ℚ) : ℤ := if 0 ≤ q then ⌊q⌋ else ⌈q⌉

/-- Embedding of `_get_highway_color(map_name, highway_tags)`
(src/utils/dataset_generator.py, lines 41-49): 0 for the height field,
1 for the segmentation map, and an exception (`Except.error`) for an unknown
map name.  The tag dictionary is ignored, as in the source (the `layer`
check is commented out there). -/
def _get_highway_color (map_name : String) (_highway_tags : Tags) : Except String ℤ :=
  if map_name = "height_field" then Except.ok 0
  else if map_name = "seg_map" then Except.ok 1
  else Except.error ("Unknown map name: " ++ map_name)

/-- Embedding of `_get_footprint_color(map_name, footprint_tags)`
(src/utils/dataset_generator.py, lines 52-81).  `Except.ok none` models the
Python `None` return ("skip, do not paint"); `Except.ok (some c)` a painted
value; `Except.error` models the `assert`/`ValueError`/unknown-map-name
exceptions.  The height branch computes `int(float(tags["height"]) + 0.5)`. -/
def _get_footprint_color (map_name : String) (footprint_tags : Tags) :
    Except String (Option ℤ) :=
  if map_name = "height_field" then
    if _tag_equals footprint_tags "role" (some ["inner"]) then Except.ok none
    else if _tag_equals footprint_tags "building" (some ["roof"]) then Except.ok none
    else if _tag_equals footprint_tags "landuse" (some ["construction"]) then
      Except.ok (some 10)
    else
      match footprint_tags.lookup "height" with
      | none => Except.error "AssertionError: height not in footprint_tags"
      | some hstr =>
        match parseDecimal hstr with
        | none => Except.error "ValueError: could not convert string to float"
        | some q => Except.ok (some (pyInt (q + 1 / 2)))
  else if map_name = "seg_map" then
    if _tag_equals footprint_tags "role" (some ["inner"]) then Except.ok (some 2)
    else if _tag_equals footprint_tags "building" none then Except.ok (some 2)
    else if _tag_equals footprint_tags "landuse" (some ["construction"]) then
      Except.ok (some 4)
    else Except.ok (some 0)
  else if map_name = "footprint_contour" then
    if _tag_equals footprint_tags "building" none then Except.ok (some 1)
    else Except.ok (some 0)
  else Except.error ("Unknown map name: " ++ map_name)

/-- Binary rasters are modelled as Boolean-valued functions on integer pixel
coordinates `(y, x)`; the raster's extent `hh × ww` is passed alongside where
it matters.  Pixels outside the extent are irrelevant to the modelled code. -/
abbrev BMask := ℤ → ℤ → Bool

/-- The five offsets of a 5 × 5 structuring-element window, centred at 0. -/
def offsets5 : List ℤ := [-2, -1, 0, 1, 2]

/-- Model of `cv2.erode(mask, np.ones((5, 5)))` at one pixel: the minimum of
the mask over the 5 × 5 window centred there.  OpenCV's default border value
for erosion is plus infinity, so window positions outside the raster do not
erode: they are treated as set. -/
def erode5 (m : BMask) (hh ww : ℕ) (y x : ℤ) : Bool :=
  offsets5.all fun dy =>
    offsets5.all fun dx =>
      if 0 ≤ y + dy ∧ y + dy < (hh : ℤ) ∧ 0 ≤ x + dx ∧ x + dx < (ww : ℤ) then
        m (y + dy) (x + dx)
      else true

/-- Linear index of an in-extent pixel, row-major. -/
def cellIndex (ww : ℕ) (y x : ℤ) : ℕ := y.toNat * ww + x.toNat

/-- The set pixels of a mask, encoded as the bits of a natural number in
row-major order (bit `y * ww + x` for pixel `(y, x)`). -/
def encodeMask (m : BMask) (hh ww : ℕ) : ℕ :=
  (List.range (hh * ww)).foldl
    (fun acc i => if m ((i / ww : ℕ) : ℤ) ((i % ww : ℕ) : ℤ) then acc ||| (1 <<< i) else acc)
    0

/-- Bits of the cells that are not in the leftmost column (guard against
row wrap-around when shifting a bit set one pixel to the left). -/
def notFirstColBits (hh ww : ℕ) : ℕ :=
  (List.range (hh * ww)).foldl
    (fun acc i => if i % ww ≠ 0 then acc ||| (1 <<< i) else acc) 0

/-- Bits of the cells that are not in the rightmost column (guard against
row wrap-around when shifting a bit set one pixel to the right). -/
def notLastColBits (hh ww : ℕ) : ℕ :=
  (List.range (hh * ww)).foldl
    (fun acc i => if i % ww ≠ ww - 1 then acc ||| (1 <<< i) else acc) 0

/-- One step of 4-connected region growing inside the set `bits`: add the
four axis neighbours of every cell of `s` and intersect with `bits`. -/
def expandReach (bits : ℕ) (hh ww : ℕ) (s : ℕ) : ℕ :=
  (s ||| (s >>> ww) ||| (s <<< ww) |||
      ((s &&& notFirstColBits hh ww) >>> 1) ||| ((s &&& notLastColBits hh ww) <<< 1)) &&&
    bits

/-- Region growing to a fixed point (fuel-bounded; `hh * ww` steps always
suffice since each non-final step adds at least one cell). -/
def reachFix (bits : ℕ) (hh ww : ℕ) : ℕ → ℕ → ℕ
  | 0, s => s
  | fuel + 1, s =>
    let s' := expandReach bits hh ww s
    if s' = s then s else reachFix bits hh ww fuel s'

/-- Number of set bits among the first `n`. -/
def popcountBelow (n s : ℕ) : ℕ :=
  (List.range n).foldl (fun acc i => acc + if s.testBit i then 1 else 0) 0

/-- Model of the per-pixel component area reported by
`cv2.connectedComponentsWithStats(mask, connectivity=4)`: the number of pixels
of the 4-connected component of `(y, x)` in `m`, and 0 when `(y, x)` is not a
set in-extent pixel (background). -/
def compSizeAt (m : BMask) (hh ww : ℕ) (y x : ℤ) : ℕ :=
  if 0 ≤ y ∧ y < (hh : ℤ) ∧ 0 ≤ x ∧ x < (ww : ℤ) ∧ m y x = true then
    popcountBelow (hh * ww)
      (reachFix (encodeMask m hh ww) hh ww (hh * ww) (1 <<< cellIndex ww y x))
  else 0

/-- The fixed area threshold `N_PIXELS_THRES` of `_remove_mask_outliers`. -/
def N_PIXELS_THRES : ℕ := 96

/-- Embedding of `_remove_mask_outliers(mask)`
(src/utils/dataset_generator.py, lines 84-90): erode with a 5 × 5 kernel,
label 4-connected components of the eroded mask, and zero every component
whose pixel count is at most 96; the returned raster is the eroded mask with
those components removed (`mask * ~ignored_mask` where `mask` has been
rebound to the eroded mask). -/
def _remove_mask_outliers (m : BMask) (hh ww : ℕ) : BMask :=
  fun y x =>
    erode5 m hh ww y x && decide (N_PIXELS_THRES < compSizeAt (erode5 m hh ww) hh ww y x)

/-- Channel-wise inclusive colour-range test, modelling `cv2.inRange` on one
BGR pixel. -/
def inRangeBGR (lb ub v : ℕ × ℕ × ℕ) : Bool :=
  decide (lb.1 ≤ v.1) && decide (v.1 ≤ ub.1) &&
    decide (lb.2.1 ≤ v.2.1) && decide (v.2.1 ≤ ub.2.1) &&
    decide (lb.2.2 ≤ v.2.2) && decide (v.2.2 ≤ ub.2.2)

/-- Water colour lower bound of `get_coast_zones`. -/
def water_lb : ℕ × ℕ × ℕ := (219, 219, 195)

/-- Water colour upper bound of `get_coast_zones`. -/
def water_ub : ℕ × ℕ × ℕ := (235, 235, 219)

/-- Green-land colour lower bound of `get_green_lands`. -/
def green_lb : ℕ × ℕ × ℕ := (209, 217, 217)

/-- Green-land colour upper bound of `get_green_lands`. -/
def green_ub : ℕ × ℕ × ℕ := (219, 236, 233)

/-- Embedding of `get_coast_zones(osm_tile_img_path, img_size)`
(src/utils/dataset_generator.py, lines 93-98): threshold the reference tile
image on the water colour range and clean the mask.  Only the *size* of the
segmentation map is consulted by the source, never its contents.  The
`cv2.resize` is modelled as the identity (the tile image is given here
already at raster resolution). -/
def get_coast_zones (tile_img : ℤ → ℤ → ℕ × ℕ × ℕ) (hh ww : ℕ) : BMask :=
  _remove_mask_outliers (fun y x => inRangeBGR water_lb water_ub (tile_img y x)) hh ww

/-- Embedding of `get_green_lands(osm_tile_img_path, seg_map)`
(src/utils/dataset_generator.py, lines 101-109): threshold the reference tile
image on the green colour range, clean the mask, and then restrict it to the
pixels still uncategorised in `seg_map` (value 0).  `cv2.resize` is modelled
as the identity as above. -/
def get_green_lands (tile_img : ℤ → ℤ → ℕ × ℕ × ℕ) (hh ww : ℕ)
    (seg_map : ℤ → ℤ → ℤ) : BMask :=
  fun y x =>
    _remove_mask_outliers (fun y' x' => inRangeBGR green_lb green_ub (tile_img y' x')) hh ww y x
      && decide (seg_map y x = 0)

/-- A rasterized map feature as it reaches the painting primitives: the set of
pixels its geometry covers (rasterization itself is an external collaborator)
together with its tag dictionary. -/
structure Feature where
  pixels : ℤ → ℤ → Bool
  tags : Tags

/-- Modelled from the spec: one call of the external rasterization primitive
(`utils/osm_helper.py`, outside src/) for a single feature — fill the
feature's pixel set with the colour chosen by the classifier callback, leaving
the raster untouched when the callback yields `none` ("skip"). -/
def paintOne (colorOf : Tags → Option ℤ) (m : ℤ → ℤ → ℤ) (f : Feature) : ℤ → ℤ → ℤ :=
  match colorOf f.tags with
  | none => m
  | some c => fun y x => if f.pixels y x then c else m y x

/-- Modelled from the spec: `plot_highways` / `plot_footprints`
(`utils/osm_helper.py`, outside src/) paint the features onto the raster in
list order, later features overwriting earlier values; the value painted for
each feature comes from the per-feature colour callback. -/
def plotFeatures (colorOf : Tags → Option ℤ) (base : ℤ → ℤ → ℤ)
    (features : List Feature) : ℤ → ℤ → ℤ :=
  features.foldl (paintOne colorOf) base

/-- The highway colour callback as passed to `plot_highways`, with the raised
exception of an unknown map name modelled as "skip" (within `get_osm_images`
the map name is always valid, so this case is never taken). -/
def highwayColorOf (map_name : String) (t : Tags) : Option ℤ :=
  match _get_highway_color map_name t with
  | Except.ok c => some c
  | Except.error _ => none

/-- The footprint colour callback as passed to `plot_footprints`; exceptions
are modelled as "skip" here and accounted for separately (see
`get_osm_images_height`). -/
def footprintColorOf (map_name : String) (t : Tags) : Option ℤ :=
  match _get_footprint_color map_name t with
  | Except.ok o => o
  | Except.error _ => none

/-- One map tile's input to `get_osm_images` after the external parsing and
rasterization collaborators have run: the raster extent, the rasterized
highway and footprint features, and the optional reference tile image
(`none` models a missing `tiles.png`). -/
structure OsmCfg where
  hh : ℕ
  ww : ℕ
  highways : List Feature
  footprints : List Feature
  tileImg : Option (ℤ → ℤ → ℕ × ℕ × ℕ)

/-- Segmentation map after step 1 of `get_osm_images`
(src/utils/dataset_generator.py, lines 135-138): highways painted onto the
empty raster with `_get_highway_color("seg_map", ·) = 1`. -/
def segStage1 (cfg : OsmCfg) : ℤ → ℤ → ℤ :=
  plotFeatures (highwayColorOf "seg_map") (fun _ _ => 0) cfg.highways

/-- The green-land mask used by `get_osm_images` (lines 141-150): empty when
the reference tile image is missing, otherwise `get_green_lands` of the tile
image and the current (post-highway) segmentation map. -/
def greenMaskOf (cfg : OsmCfg) : BMask :=
  match cfg.tileImg with
  | none => fun _ _ => false
  | some img => get_green_lands img cfg.hh cfg.ww (segStage1 cfg)

/-- Segmentation map after `seg_map[green_lands != 0] = 3` (line 150). -/
def segStage2 (cfg : OsmCfg) : ℤ → ℤ → ℤ :=
  fun y x => if greenMaskOf cfg y x then 3 else segStage1 cfg y x

/-- The coast mask used by `get_osm_images` (lines 141-152): empty when the
reference tile image is missing, otherwise `get_coast_zones` of the tile
image (only the raster extent of the segmentation map is used). -/
def coastMaskOf (cfg : OsmCfg) : BMask :=
  match cfg.tileImg with
  | none => fun _ _ => false
  | some img => get_coast_zones img cfg.hh cfg.ww

/-- Segmentation map after `seg_map[coast_zones != 0] = 5` (line 152). -/
def segStage3 (cfg : OsmCfg) : ℤ → ℤ → ℤ :=
  fun y x => if coastMaskOf cfg y x then 5 else segStage2 cfg y x

/-- Segmentation map after footprints are painted last (lines 154-161). -/
def segStage4 (cfg : OsmCfg) : ℤ → ℤ → ℤ :=
  plotFeatures (footprintColorOf "seg_map") (segStage3 cfg) cfg.footprints

/-- The final segmentation map of `get_osm_images`: after all painting,
`seg_map[seg_map == 0] = 6` (lines 162-163) assigns the ground class to every
still-unlabelled pixel. -/
def get_osm_images_seg (cfg : OsmCfg) : ℤ → ℤ → ℤ :=
  fun y x => if segStage4 cfg y x = 0 then 6 else segStage4 cfg y x

/-- Height field after highways are painted onto the empty raster with
`_get_highway_color("height_field", ·) = 0` (lines 180-189). -/
def heightStage1 (cfg : OsmCfg) : ℤ → ℤ → ℤ :=
  plotFeatures (highwayColorOf "height_field") (fun _ _ => 0) cfg.highways

/-- Height field after `height_field[height_field == 0] = 4` (line 190):
every pixel still 0 — including every highway pixel, which was painted 0 —
becomes 4. -/
def heightStage2 (cfg : OsmCfg) : ℤ → ℤ → ℤ :=
  fun y x => if heightStage1 cfg y x = 0 then 4 else heightStage1 cfg y x

/-- Height field after `height_field[coast_zones != 0] = 0` (lines 191-192). -/
def heightStage3 (cfg : OsmCfg) : ℤ → ℤ → ℤ :=
  fun y x => if coastMaskOf cfg y x then 0 else heightStage2 cfg y x

/-- Height field after `height_field[green_lands != 0] = 8` (lines 193-194). -/
def heightStage4 (cfg : OsmCfg) : ℤ → ℤ → ℤ :=
  fun y x => if greenMaskOf cfg y x then 8 else heightStage3 cfg y x

/-- Footprint height colour as written into the `np.uint16` height raster:
the classifier's value reduced modulo 2 ^ 16. -/
def heightFootprintColorOf (t : Tags) : Option ℤ :=
  (footprintColorOf "height_field" t).map (fun c => c % 65536)

/-- Height field after footprints are painted last (lines 195-203), following
the same order as the segmentation pipeline. -/
def heightStage5 (cfg : OsmCfg) : ℤ → ℤ → ℤ :=
  plotFeatures heightFootprintColorOf (heightStage4 cfg) cfg.footprints

/-- The height-field half of `get_osm_images` (lines 179-208), including the
exception behaviour: if any footprint's height classification raises
(missing `height` tag — `MissingAttributeError` territory — or an unknown map
name), the whole tile computation fails; otherwise the staged height field is
produced.  The final `astype(np.uint16)` is a no-op here because values are
already reduced modulo 2 ^ 16 at painting time. -/
def get_osm_images_height (cfg : OsmCfg) : Except String (ℤ → ℤ → ℤ) :=
  match cfg.footprints.mapM (fun f => _get_footprint_color "height_field" f.tags) with
  | Except.ok _ => Except.ok (heightStage5 cfg)
  | Except.error e => Except.error e

/-- Height-field value of a tile at one pixel, with a sentinel of -1 when the
tile computation raised. -/
def heightAtD (cfg : OsmCfg) (y x : ℤ) : ℤ :=
  match get_osm_images_height cfg with
  | Except.ok hf => hf y x
  | Except.error _ => -1

/-- Whether the height-field computation of a tile succeeded. -/
def heightOk (cfg : OsmCfg) : Bool :=
  match get_osm_images_height cfg with
  | Except.ok _ => true
  | Except.error _ => false

/-- Embedding of the slice-bound computation of `_get_img_patch(img, cx, cy,
patch_size)` (src/utils/dataset_generator.py, lines 461-473), for a raster of
shape `himg × wimg`.  Mirrors the source exactly: when the requested window
leaves the raster, a negative start index is set to 0 and an end index of at
least the raster extent is also set to 0 (sic).  Returns
`((h_s, h_e), (x_s, x_e))` as used in `img[h_s:h_e, x_s:x_e]`.  Python's
floor division `//` is `Int.fdiv`. -/
def _get_img_patch_bounds (himg wimg cx cy patch_size : ℤ) : (ℤ × ℤ) × (ℤ × ℤ) :=
  let x_s0 := cx - patch_size.fdiv 2
  let x_e0 := cx + patch_size.fdiv 2
  let h_s0 := cy - patch_size.fdiv 2
  let h_e0 := cy + patch_size.fdiv 2
  let xs :=
    if x_s0 < 0 ∨ x_e0 ≥ wimg then
      (if x_s0 < 0 then (0 : ℤ) else x_s0, if x_e0 ≥ wimg then (0 : ℤ) else x_e0)
    else (x_s0, x_e0)
  let hs :=
    if h_s0 < 0 ∨ h_e0 ≥ himg then
      (if h_s0 < 0 then (0 : ℤ) else h_s0, if h_e0 ≥ himg then (0 : ℤ) else h_e0)
    else (h_s0, h_e0)
  (hs, xs)

/-- NumPy slice-index resolution along one axis of length `len`: negative
indices count from the end, and everything is clipped into `[0, len]`. -/
def npIndex (len i : ℤ) : ℤ := if i < 0 then max (len + i) 0 else min i len

/-- Number of elements selected by the NumPy slice `s:e` along an axis of
length `len`. -/
def npSliceLen (len s e : ℤ) : ℤ := max (npIndex len e - npIndex len s) 0

/-- Shape `(rows, cols)` of the patch `img[h_s:h_e, x_s:x_e]` returned by
`_get_img_patch` on a raster of shape `himg × wimg`. -/
def patchShape (himg wimg cx cy patch_size : ℤ) : ℤ × ℤ :=
  let b := _get_img_patch_bounds himg wimg cx cy patch_size
  (npSliceLen himg b.1.1 b.1.2, npSliceLen wimg b.2.1 b.2.2)

/-- One Google Earth camera pose: geographic coordinate (longitude, latitude)
and altitude, with exact rationals standing for the Python floats. -/
structure CameraPose where
  lng : ℚ
  lat : ℚ
  alt : ℚ
deriving DecidableEq

/-- Mean of a list of rationals, modelling `np.mean` (division by zero for the
empty list never occurs in the modelled call sites). -/
def meanQ (l : List ℚ) : ℚ := l.sum / l.length

/-- The per-frame relative positions built in
`get_google_earth_aligned_seg_maps` (src/utils/dataset_generator.py, lines
382-395): each frame's pixel position (through the external `lnglat2xy`
projection collaborator, abstracted as the argument `proj`) minus the target's
pixel position `(cx, cy)`, with the frame's raw altitude as the z component. -/
def framePixelPositions (proj : ℚ → ℚ → ℚ × ℚ) (center : CameraPose)
    (frames : List CameraPose) : List (ℚ × ℚ × ℚ) :=
  frames.map fun p =>
    ((proj p.lng p.lat).1 - (proj center.lng center.lat).1,
      (proj p.lng p.lat).2 - (proj center.lng center.lat).2,
      p.alt)

/-- The track-wide offset of lines 396-397: the mean of the relative x
positions and the mean of the relative y positions over all frames.  No z
offset is computed. -/
def trackOffset (rels : List (ℚ × ℚ × ℚ)) : ℚ × ℚ :=
  (meanQ (rels.map fun r => r.1), meanQ (rels.map fun r => r.2.1))

/-- The per-frame camera positions after the loop update
`gcp["position"]["x"] -= offset["x"] - vol_cx` (and likewise for y) of lines
402-403: the offset is subtracted identically from every frame's relative
position and the voxel patch centre is added; the z component is left
untouched. -/
def alignedPositions (vol_cx vol_cy : ℚ) (rels : List (ℚ × ℚ × ℚ)) :
    List (ℚ × ℚ × ℚ) :=
  rels.map fun r =>
    (r.1 - ((trackOffset rels).1 - vol_cx), r.2.1 - ((trackOffset rels).2 - vol_cy), r.2.2)

/-- Embedding of `get_tile_img(zoom, x, y)` (src/utils/osm_image_fetcher.py,
lines 29-55) at the level relevant to retry behaviour: a cached tile image is
returned without fetching or sleeping; otherwise one fetch attempt is made
whose result may be `none` (failed download or unreadable file, all
exceptions being caught and logged), followed unconditionally by a
`time.sleep(0.5)` — returned here as the second component, the delay in
seconds incurred by the call. -/
def get_tile_img {Img : Type} (cached fetched : Option Img) : Option Img × ℚ :=
  match cached with
  | some i => (some i, 0)
  | none => (fetched, 1 / 2)

/-- Embedding of the retry loop `while osm_img_patch is None:
osm_img_patch = get_tile_img(zoom_level, i, j)` in `main`
(src/utils/osm_image_fetcher.py, lines 109-117).  `attempts k` is the result
of the k-th call of `get_tile_img`; the loop is indexed by fuel, and a result
of `none` means the loop has not produced a patch within that many attempts
(the source loop simply keeps running — it has no failure exit). -/
def fetchLoop {Img : Type} (attempts : ℕ → Option Img) : ℕ → Option Img
  | 0 => none
  | fuel + 1 =>
    match attempts 0 with
    | some img => some img
    | none => fetchLoop (fun n => attempts (n + 1)) fuel

/-- Number of set pixels of a mask within the `hh × ww` extent. -/
def maskCount (m : BMask) (hh ww : ℕ) : ℕ :=
  (List.range (hh * ww)).foldl
    (fun acc i => acc + if m ((i / ww : ℕ) : ℤ) ((i % ww : ℕ) : ℤ) then 1 else 0) 0

/-- Whether a mask is all-zero within the `hh × ww` extent. -/
def maskAllZero (m : BMask) (hh ww : ℕ) : Bool :=
  (List.range (hh * ww)).all fun i => m ((i / ww : ℕ) : ℤ) ((i % ww : ℕ) : ℤ) == false

/-- A 5 × 5 mask holding exactly one set pixel, at (2, 2). -/
def singlePixMask : BMask := fun y x => decide (y = 2) && decide (x = 2)

/-- A 24 × 14 mask holding one solid 20 × 10 rectangle of 200 pixels (rows
2-21, columns 2-11), with a 2-pixel margin to every raster border. -/
def rectMask : BMask :=
  fun y x => decide (2 ≤ y) && decide (y < 22) && decide (2 ≤ x) && decide (x < 12)

/-- A 10 × 20 mask that is set on the whole raster (200 pixels). -/
def fullMask1020 : BMask :=
  fun y x => decide (0 ≤ y) && decide (y < 10) && decide (0 ≤ x) && decide (x < 20)

/-- A reference tile image that is uniformly of a colour inside the green-land
range. -/
def imgAllGreen : ℤ → ℤ → ℕ × ℕ × ℕ := fun _ _ => (210, 220, 220)

/-- A reference tile image that is uniformly of a colour inside the water
range. -/
def imgAllWater : ℤ → ℤ → ℕ × ℕ × ℕ := fun _ _ => (220, 220, 200)

/-- A rasterized feature covering exactly the pixel (5, 5). -/
def featAt55 (t : Tags) : Feature :=
  ⟨fun y x => decide (y = 5) && decide (x = 5), t⟩

/-- Tile configuration for the coast-overwrite witness: a 10 × 20 raster, one
highway through pixel (5, 5), no footprints, and an all-water reference tile
image. -/
def cfgC8 : OsmCfg :=
  ⟨10, 20, [featAt55 [("highway", "primary")]], [], some imgAllWater⟩

/-- Tile configuration for the height-field counterexample: a 1 × 1 raster
whose only pixel is covered by one highway; no footprints, no reference tile
image. -/
def cfgC5cex : OsmCfg :=
  ⟨1, 1, [⟨fun y x => decide (y = 0) && decide (x = 0), [("highway", "primary")]⟩], [], none⟩

/-- The footprint of the height-field witness: it covers pixel (1, 0) and
carries a `height` tag of 12. -/
def fpC5 : Feature := ⟨fun y x => decide (y = 1) && decide (x = 0), [("height", "12")]⟩

/-- Tile configuration for the height-field witness: a 2 × 1 raster, one
highway covering pixel (0, 0), the footprint `fpC5`, no reference tile
image. -/
def cfgC5wit : OsmCfg :=
  ⟨2, 1, [⟨fun y x => decide (y = 0) && decide (x = 0), [("highway", "primary")]⟩], [fpC5], none⟩

theorem plotFeatures_nil (colorOf : Tags → Option ℤ) (base : ℤ → ℤ → ℤ) :
    plotFeatures colorOf base [] = base := rfl

theorem plotFeatures_cons (colorOf : Tags → Option ℤ) (base : ℤ → ℤ → ℤ)
    (f : Feature) (fs : List Feature) :
    plotFeatures colorOf base (f :: fs) = plotFeatures colorOf (paintOne colorOf base f) fs := rfl

theorem plotFeatures_append_one (colorOf : Tags → Option ℤ) (base : ℤ → ℤ → ℤ)
    (fs : List Feature) (f : Feature) :
    plotFeatures colorOf base (fs ++ [f]) = paintOne colorOf (plotFeatures colorOf base fs) f := by
  simp [plotFeatures, List.foldl_append]

theorem paintOne_skip (colorOf : Tags → Option ℤ) (m : ℤ → ℤ → ℤ) (f : Feature)
    (y x : ℤ) (h : f.pixels y x = false ∨ colorOf f.tags = none) :
    paintOne colorOf m f y x = m y x := by
  rcases h with hp | hc
  · unfold paintOne
    cases hcf : colorOf f.tags with
    | none => rfl
    | some c => simp [hp]
  · simp [paintOne, hc]

theorem plotFeatures_eq_base (colorOf : Tags → Option ℤ) (fs : List Feature)
    (base : ℤ → ℤ → ℤ) (y x : ℤ)
    (h : ∀ f ∈ fs, f.pixels y x = false ∨ colorOf f.tags = none) :
    plotFeatures colorOf base fs y x = base y x := by
  induction fs generalizing base with
  | nil => rfl
  | cons f t ih =>
    rw [plotFeatures_cons]
    rw [ih (paintOne colorOf base f) (fun g hg => h g (List.mem_cons_of_mem f hg))]
    exact paintOne_skip colorOf base f y x (h f (List.mem_cons_self f t))

theorem highwayColorOf_height_field (t : Tags) :
    highwayColorOf "height_field" t = some 0 := rfl

theorem plot_highways_height_zero (hws : List Feature) (base : ℤ → ℤ → ℤ)
    (hb : ∀ y x, base y x = 0) (y x : ℤ) :
    plotFeatures (highwayColorOf "height_field") base hws y x = 0 := by
  induction hws generalizing base with
  | nil => exact hb y x
  | cons f t ih =>
    rw [plotFeatures_cons]
    refine ih _ (fun y' x' => ?_)
    rw [paintOne, highwayColorOf_height_field]
    by_cases hp : f.pixels y' x' <;> simp [hp, hb y' x']

/-- C1 counterexample: the claim says a footprint with role="inner" resolves
to "no value"/skip in *every* layer, but for the segmentation map the
classifier returns class 2 for such a footprint — a painted value, not a
skip. -/
theorem c1_counterexample :
    _get_footprint_color "seg_map" [("role", "inner")] = Except.ok (some 2) ∧
      (some (2 : ℤ) ≠ none) := by
  refine ⟨rfl, by decide⟩

/-- C1 (amended): for the height field — and only there — a footprint whose
tags carry role="inner" is classified as skip (`None`), for every tag
dictionary; in the segmentation map such a footprint is painted class 2, and
in the footprint contour it follows the building rule. -/
theorem c1_inner_role_height_skip (tags : Tags)
    (hin : _tag_equals tags "role" (some ["inner"]) = true) :
    _get_footprint_color "height_field" tags = Except.ok none := by
  rw [_get_footprint_color, if_pos rfl, if_pos hin]

/-- Witness for `c1_inner_role_height_skip` at the concrete tag dictionary
`[("role", "inner")]`. -/
theorem c1_inner_role_height_skip_witness :
    _tag_equals [("role", "inner")] "role" (some ["inner"]) = true ∧
      _get_footprint_color "height_field" [("role", "inner")] = Except.ok none :=
  ⟨by decide, c1_inner_role_height_skip [("role", "inner")] (by decide)⟩

/-- C2: evaluation of the patch-bound computation at a raster of shape
10 × 10 with requested centre (cx, cy) = (9, 5) and patch size 4.  The
horizontal window [7, 11) exceeds the raster, and the code sets the *end*
column index to 0 instead of clamping it to the width, so the realized patch
`img[3:7, 7:0]` has shape 4 × 0 — an empty patch, contradicting the claim
that clamping keeps the patch in-range and never empty. -/
theorem c2_patch_empty_at_right_edge :
    _get_img_patch_bounds 10 10 9 5 4 = ((3, 7), (7, 0)) ∧
      patchShape 10 10 9 5 4 = (4, 0) := by
  constructor <;> rfl

/-- C3 counterexample: `rectMask` holds a single solid 4-connected blob of
exactly 200 pixels (its pixel count is 200 and the whole of it is one
component), yet the Mask Cleaner does not return it unchanged: the input is
set at pixel (10, 6) while the cleaned output is clear there, because the
5 × 5 erosion shrinks the 20 × 10 rectangle to 16 × 6 = 96 pixels, which the
(≤ 96)-pixel component filter then removes. -/
theorem c3_counterexample :
    maskCount rectMask 24 14 = 200 ∧ compSizeAt rectMask 24 14 2 2 = 200 ∧
      rectMask 10 6 = true ∧ _remove_mask_outliers rectMask 24 14 10 6 = false := by
  decide

/-- C3 (amended): a mask with one connected 1-pixel blob cleans to the
all-zero mask; but a 200-pixel solid blob is *not* returned unchanged in
general — the cleaner erodes with a 5 × 5 kernel before filtering, so the
20 × 10 rectangle of `rectMask` (whose erosion has exactly 96 pixels, at the
threshold) is removed, while a 200-pixel blob that survives erosion intact,
such as `fullMask1020` filling its whole raster, is kept. -/
theorem c3_amended :
    maskCount singlePixMask 5 5 = 1 ∧
      maskAllZero (_remove_mask_outliers singlePixMask 5 5) 5 5 = true ∧
      maskCount (erode5 rectMask 24 14) 24 14 = 96 ∧
      _remove_mask_outliers rectMask 24 14 10 6 = false ∧ rectMask 10 6 = true ∧
      _remove_mask_outliers fullMask1020 10 20 5 5 = true := by
  decide

/-- C10: the Mask Cleaner never adds pixels — wherever the cleaned mask is
set, the input mask was set.  The erosion window contains its centre, so an
eroded-set pixel was set, and the component filter only clears pixels. -/
theorem c10_cleaner_no_new_pixels (m : BMask) (hh ww : ℕ) (y x : ℤ)
    (hcl : _remove_mask_outliers m hh ww y x = true) : m y x = true := by
  simp only [_remove_mask_outliers, Bool.and_eq_true, decide_eq_true_eq] at hcl
  obtain ⟨he, hc⟩ := hcl
  by_cases hg : 0 ≤ y ∧ y < (hh : ℤ) ∧ 0 ≤ x ∧ x < (ww : ℤ) ∧ erode5 m hh ww y x = true
  · obtain ⟨hy0, hyh, hx0, hxw, -⟩ := hg
    simp only [erode5] at he
    have h0 : (0 : ℤ) ∈ offsets5 := by decide
    have h1 := List.all_eq_true.mp he 0 h0
    simp only at h1
    have h2 := List.all_eq_true.mp h1 0 h0
    simp only [add_zero] at h2
    rwa [if_pos ⟨hy0, hyh, hx0, hxw⟩] at h2
  · rw [compSizeAt, if_neg hg] at hc
    exact absurd hc (by simp [N_PIXELS_THRES])

/-- Witness for `c10_cleaner_no_new_pixels` on the full 10 × 20 mask at pixel
(5, 5), where the cleaned mask is set. -/
theorem c10_cleaner_no_new_pixels_witness :
    _remove_mask_outliers fullMask1020 10 20 5 5 = true ∧ fullMask1020 5 5 = true :=
  ⟨by decide, c10_cleaner_no_new_pixels fullMask1020 10 20 5 5 (by decide)⟩

theorem fetchLoop_allFail (n : ℕ) : fetchLoop (fun _ => (none : Option ℕ)) n = none := by
  induction n with
  | zero => rfl
  | succ k ih => simpa [fetchLoop] using ih

/-- C7 counterexample: the claim says the tile-fetch retry loop is bounded and
that, once the bound is exhausted, failure propagates; but the loop of `main`
has no failure exit at all — on a persistently failing fetcher there is no
number of attempts after which it stops retrying (no fuel makes it yield). -/
theorem c7_counterexample :
    ¬ ∃ n : ℕ, fetchLoop (fun _ => (none : Option ℕ)) n ≠ none := by
  intro hex
  obtain ⟨n, hn⟩ := hex
  exact hn (fetchLoop_allFail n)

/-- C7 (amended): reference-imagery tile fetching retries synchronously with
a fixed 0.5-second delay after every uncached attempt, and it retries without
bound: a persistently failing fetch never terminates the loop (so no failure
is ever propagated), while the first successful attempt's image is returned. -/
theorem c7_unbounded_retry_fixed_delay :
    (∀ n : ℕ, fetchLoop (fun _ => (none : Option ℕ)) n = none) ∧
      (∀ (img : ℕ) (n : ℕ), fetchLoop (fun _ => some img) (n + 1) = some img) ∧
      (∀ fetched : Option ℕ, (get_tile_img none fetched).2 = 1 / 2) :=
  ⟨fetchLoop_allFail, fun _ _ => rfl, fun _ => rfl⟩

/-- Witness applying `c7_unbounded_retry_fixed_delay` at concrete inputs. -/
theorem c7_unbounded_retry_fixed_delay_witness :
    fetchLoop (fun _ => (none : Option ℕ)) 7 = none ∧
      fetchLoop (fun _ => some (3 : ℕ)) 5 = some 3 ∧
      (get_tile_img none (some (3 : ℕ))).2 = 1 / 2 :=
  ⟨c7_unbounded_retry_fixed_delay.1 7, c7_unbounded_retry_fixed_delay.2.1 3 4,
    c7_unbounded_retry_fixed_delay.2.2 (some 3)⟩

/-- C9: the camera-track offset correction touches only the x and y
components — for every projection, target and frame list, the z components of
the aligned positions are exactly the raw altitudes read from the camera
file; `trackOffset` computes no z offset (its type is a pair) and none is
subtracted. -/
theorem c9_z_component_untouched (proj : ℚ → ℚ → ℚ × ℚ) (center : CameraPose)
    (frames : List CameraPose) (vcx vcy : ℚ) :
    (alignedPositions vcx vcy (framePixelPositions proj center frames)).map (fun r => r.2.2)
      = frames.map (fun p => p.alt) := by
  simp [alignedPositions, framePixelPositions, List.map_map, Function.comp]

theorem sum_map_sub_const (l : List ℚ) (c : ℚ) :
    (l.map fun a => a - c).sum = l.sum - l.length * c := by
  induction l with
  | nil => simp
  | cons a t ih =>
    simp only [List.map_cons, List.sum_cons, List.length_cons, ih, Nat.cast_add, Nat.cast_one]
    ring

theorem meanQ_center (l : List ℚ) (hl : l ≠ []) :
    meanQ (l.map fun a => a - meanQ l) = 0 := by
  have hn : (l.length : ℚ) ≠ 0 := by
    exact_mod_cast Nat.cast_ne_zero.mpr (List.length_pos.mpr hl).ne'
  have hcancel : (l.length : ℚ) * (l.sum / l.length) = l.sum := by
    field_simp
  rw [meanQ, List.length_map, sum_map_sub_const, meanQ, hcancel, sub_self, zero_div]

/-- C4: the track-wide offset is the mean over all frames of (frame pixel
position − target pixel position); it is subtracted identically from every
frame's relative position (together with the uniform voxel-centre
translation); and the mean corrected relative position — the aligned
positions with the voxel centre taken back out — is (0, 0, 0) exactly
whenever the frames' altitudes sum to 0 (z receives no offset correction). -/
theorem c4_track_offset_correction (proj : ℚ → ℚ → ℚ × ℚ) (center : CameraPose)
    (frames : List CameraPose) (vcx vcy : ℚ) (rels : List (ℚ × ℚ × ℚ))
    (hrels : rels = framePixelPositions proj center frames)
    (hne : frames ≠ [])
    (hz : (rels.map fun r => r.2.2).sum = 0) :
    trackOffset rels = (meanQ (rels.map fun r => r.1), meanQ (rels.map fun r => r.2.1)) ∧
      alignedPositions vcx vcy rels =
        rels.map (fun r => (r.1 - ((trackOffset rels).1 - vcx),
          r.2.1 - ((trackOffset rels).2 - vcy), r.2.2)) ∧
      meanQ ((alignedPositions vcx vcy rels).map fun r => r.1 - vcx) = 0 ∧
      meanQ ((alignedPositions vcx vcy rels).map fun r => r.2.1 - vcy) = 0 ∧
      meanQ ((alignedPositions vcx vcy rels).map fun r => r.2.2) = 0 := by
  have hrne : rels ≠ [] := by
    rw [hrels]
    intro hcon
    exact hne (List.map_eq_nil_iff.mp hcon)
  refine ⟨rfl, rfl, ?_, ?_, ?_⟩
  · have hx : (alignedPositions vcx vcy rels).map (fun r => r.1 - vcx)
        = (rels.map fun r => r.1).map (fun a => a - meanQ (rels.map fun r => r.1)) := by
      simp only [alignedPositions, List.map_map]
      congr 1
      funext r
      simp only [Function.comp, trackOffset]
      ring
    rw [hx]
    refine meanQ_center _ (fun hcon => hrne (List.map_eq_nil_iff.mp hcon))
  · have hy : (alignedPositions vcx vcy rels).map (fun r => r.2.1 - vcy)
        = (rels.map fun r => r.2.1).map (fun a => a - meanQ (rels.map fun r => r.2.1)) := by
      simp only [alignedPositions, List.map_map]
      congr 1
      funext r
      simp only [Function.comp, trackOffset]
      ring
    rw [hy]
    refine meanQ_center _ (fun hcon => hrne (List.map_eq_nil_iff.mp hcon))
  · have hzm : (alignedPositions vcx vcy rels).map (fun r => r.2.2)
        = rels.map (fun r => r.2.2) := by
      simp [alignedPositions, List.map_map, Function.comp]
    rw [hzm, meanQ, hz, zero_div]

/-- Witness applying `c4_track_offset_correction` to a concrete two-frame
track (altitudes 3 and −3, so the z hypothesis holds) with the identity
projection and voxel centre (5, 7). -/
theorem c4_track_offset_correction_witness :
    ([⟨1, 2, 3⟩, ⟨3, 4, -3⟩] : List CameraPose) ≠ [] ∧
      ((framePixelPositions (fun a b => (a, b)) ⟨0, 0, 1⟩
          [⟨1, 2, 3⟩, ⟨3, 4, -3⟩]).map fun r => r.2.2).sum = 0 ∧
      meanQ ((alignedPositions 5 7 (framePixelPositions (fun a b => (a, b)) ⟨0, 0, 1⟩
          [⟨1, 2, 3⟩, ⟨3, 4, -3⟩])).map fun r => r.1 - 5) = 0 :=
  ⟨by simp, by norm_num [framePixelPositions],
    (c4_track_offset_correction (fun a b => (a, b)) ⟨0, 0, 1⟩ [⟨1, 2, 3⟩, ⟨3, 4, -3⟩]
        5 7 _ rfl (by simp) (by norm_num [framePixelPositions])).2.2.1⟩

theorem heightStage1_zero (cfg : OsmCfg) (y x : ℤ) : heightStage1 cfg y x = 0 :=
  plot_highways_height_zero cfg.highways _ (fun _ _ => rfl) y x

theorem heightStage2_four (cfg : OsmCfg) (y x : ℤ) : heightStage2 cfg y x = 4 := by
  simp [heightStage2, heightStage1_zero]

theorem get_osm_images_height_ok (cfg : OsmCfg) (hf : ℤ → ℤ → ℤ)
    (hok : get_osm_images_height cfg = Except.ok hf) : hf = heightStage5 cfg := by
  rw [get_osm_images_height] at hok
  cases e : cfg.footprints.mapM (fun f => _get_footprint_color "height_field" f.tags) with
  | ok l =>
    rw [e] at hok
    exact (Except.ok.inj hok).symm
  | error err =>
    rw [e] at hok
    exact absurd hok (by simp)

/-- C5 counterexample: a 1 × 1 tile whose only pixel is painted by a highway,
with no coast mask, no green-land mask and no footprint, yields height-field
value 4, not the claimed ground-level carve 0 — painting highways with 0 onto
the zero-initialised raster is indistinguishable from not painting, and the
subsequent `height_field[height_field == 0] = 4` overwrites it. -/
theorem c5_counterexample :
    heightOk cfgC5cex = true ∧ heightAtD cfgC5cex 0 0 = 4 ∧ (4 : ℤ) ≠ 0 :=
  ⟨rfl, by decide, by decide⟩

/-- C5 (amended): in the composed height field, a pixel painted by a highway
and not overridden by the coast mask, the green-land mask or a footprint
holds 4 — the same default as pixels left unfilled by all painting steps —
because the highway carve value 0 is erased by the default-fill; the override
order is coast (0), then green land (8, winning over coast), then footprints,
and a footprint painted last always takes precedence over everything. -/
theorem c5_height_field_values (cfg : OsmCfg) (hf : ℤ → ℤ → ℤ)
    (hok : get_osm_images_height cfg = Except.ok hf) :
    (∀ y x : ℤ, coastMaskOf cfg y x = false → greenMaskOf cfg y x = false →
      (∀ f ∈ cfg.footprints, f.pixels y x = false ∨ heightFootprintColorOf f.tags = none) →
      hf y x = 4) ∧
    (∀ y x : ℤ, coastMaskOf cfg y x = true → greenMaskOf cfg y x = false →
      (∀ f ∈ cfg.footprints, f.pixels y x = false ∨ heightFootprintColorOf f.tags = none) →
      hf y x = 0) ∧
    (∀ y x : ℤ, greenMaskOf cfg y x = true →
      (∀ f ∈ cfg.footprints, f.pixels y x = false ∨ heightFootprintColorOf f.tags = none) →
      hf y x = 8) ∧
    (∀ (fs : List Feature) (f : Feature) (c : ℤ) (y x : ℤ),
      cfg.footprints = fs ++ [f] → f.pixels y x = true →
      _get_footprint_color "height_field" f.tags = Except.ok (some c) →
      hf y x = c % 65536) := by
  obtain rfl : hf = heightStage5 cfg := get_osm_images_height_ok cfg hf hok
  refine ⟨?_, ?_, ?_, ?_⟩
  · intro y x hco hgr hfp
    rw [heightStage5, plotFeatures_eq_base _ _ _ _ _ hfp]
    simp [heightStage4, heightStage3, hgr, hco, heightStage2_four]
  · intro y x hco hgr hfp
    rw [heightStage5, plotFeatures_eq_base _ _ _ _ _ hfp]
    simp [heightStage4, heightStage3, hgr, hco]
  · intro y x hgr hfp
    rw [heightStage5, plotFeatures_eq_base _ _ _ _ _ hfp]
    simp [heightStage4, hgr]
  · intro fs f c y x hfeq hpix hcol
    rw [heightStage5, hfeq, plotFeatures_append_one, paintOne]
    have hcf : heightFootprintColorOf f.tags = some (c % 65536) := by
      rw [heightFootprintColorOf, footprintColorOf, hcol]
      rfl
    rw [hcf]
    simp [hpix]

theorem fpC5_color : _get_footprint_color "height_field" fpC5.tags = Except.ok (some 12) := by
  have s1 : _get_footprint_color "height_field" fpC5.tags
      = Except.ok (some (pyInt (((12 : ℕ) : ℚ) + 1 / 2))) := rfl
  have s2 : pyInt (((12 : ℕ) : ℚ) + 1 / 2) = 12 := by
    rw [pyInt, if_pos (by norm_num)]
    norm_num
  rw [s1, s2]

theorem cfgC5wit_height_ok :
    get_osm_images_height cfgC5wit = Except.ok (heightStage5 cfgC5wit) := by
  have hmap : cfgC5wit.footprints.mapM
      (fun f => _get_footprint_color "height_field" f.tags) = Except.ok [some 12] := by
    show List.mapM _ [fpC5] = _
    rw [List.mapM_cons, fpC5_color]
    rfl
  rw [get_osm_images_height, hmap]

/-- Witness applying `c5_height_field_values` to the concrete tile
`cfgC5wit`: the highway pixel (0, 0), not overridden by anything, holds 4,
and the footprint pixel (1, 0) with height tag 12 holds 12 mod 2 ^ 16. -/
theorem c5_height_field_values_witness :
    _get_footprint_color "height_field" fpC5.tags = Except.ok (some 12) ∧
      heightStage5 cfgC5wit 0 0 = 4 ∧
      heightStage5 cfgC5wit 1 0 = (12 : ℤ) % 65536 :=
  ⟨fpC5_color,
    (c5_height_field_values cfgC5wit (heightStage5 cfgC5wit) cfgC5wit_height_ok).1 0 0
      (by decide) (by decide) (by decide),
    (c5_height_field_values cfgC5wit (heightStage5 cfgC5wit) cfgC5wit_height_ok).2.2.2
      [] fpC5 12 1 0 rfl (by decide) fpC5_color⟩

/-- C6: after the Layer Compositor completes, every pixel of the segmentation
map is nonzero — any pixel still 0 after all painting steps has been assigned
the ground class 6 by `seg_map[seg_map == 0] = 6`. -/
theorem c6_seg_pixels_nonzero :
    ∀ (cfg : OsmCfg) (y x : ℤ),
      get_osm_images_seg cfg y x ≠ 0 ∧
        (segStage4 cfg y x = 0 → get_osm_images_seg cfg y x = 6) := by
  intro cfg y x
  constructor
  · by_cases h : segStage4 cfg y x = 0 <;> simp [get_osm_images_seg, h]
  · intro h
    simp [get_osm_images_seg, h]

/-- Witness applying `c6_seg_pixels_nonzero` to an empty 1 × 1 tile, whose
single pixel is 0 after painting and becomes 6. -/
theorem c6_seg_pixels_nonzero_witness :
    get_osm_images_seg ⟨1, 1, [], [], none⟩ 0 0 ≠ 0 ∧
      segStage4 ⟨1, 1, [], [], none⟩ 0 0 = 0 ∧
      get_osm_images_seg ⟨1, 1, [], [], none⟩ 0 0 = 6 :=
  ⟨(c6_seg_pixels_nonzero ⟨1, 1, [], [], none⟩ 0 0).1, by decide,
    (c6_seg_pixels_nonzero ⟨1, 1, [], [], none⟩ 0 0).2 (by decide)⟩

/-- C8: the green-land mask is restricted to currently-unclassified pixels
(wherever it is set, the segmentation map it was given reads 0), while the
coast mask is derived from the reference image alone — it does not depend on
the painted classes, and assigning class 5 overwrites every coast pixel's
prior segmentation value, including highway pixels already painted class 1
(exhibited by the witness below). -/
theorem c8_coast_overwrites_green_restricted :
    (∀ (img : ℤ → ℤ → ℕ × ℕ × ℕ) (hh ww : ℕ) (seg : ℤ → ℤ → ℤ) (y x : ℤ),
      get_green_lands img hh ww seg y x = true → seg y x = 0) ∧
    (∀ (cfg : OsmCfg) (y x : ℤ), coastMaskOf cfg y x = true → segStage3 cfg y x = 5) ∧
    (∀ (cfgA cfgB : OsmCfg) (y x : ℤ), cfgA.tileImg = cfgB.tileImg →
      cfgA.hh = cfgB.hh → cfgA.ww = cfgB.ww →
      coastMaskOf cfgA y x = coastMaskOf cfgB y x) := by
  refine ⟨?_, ?_, ?_⟩
  · intro img hh ww seg y x h
    rw [get_green_lands, Bool.and_eq_true] at h
    exact of_decide_eq_true h.2
  · intro cfg y x h
    simp only [segStage3]
    rw [if_pos h]
  · intro cfgA cfgB y x h1 h2 h3
    simp only [coastMaskOf, h1, h2, h3]

/-- Witness applying `c8_coast_overwrites_green_restricted` at concrete
inputs: an all-green tile image over an all-zero segmentation map, and the
tile `cfgC8`, whose highway pixel (5, 5) — painted class 1 in stage 2 — lies
under the coast mask and reads class 5 after stage 3. -/
theorem c8_coast_overwrites_green_restricted_witness :
    (get_green_lands imgAllGreen 10 20 (fun _ _ => 0) 5 5 = true ∧
      (fun _ _ => (0 : ℤ)) 5 5 = 0) ∧
    (coastMaskOf cfgC8 5 5 = true ∧ segStage2 cfgC8 5 5 = 1 ∧ segStage3 cfgC8 5 5 = 5) ∧
    coastMaskOf cfgC8 5 5 = coastMaskOf cfgC8 5 5 :=
  ⟨⟨by decide,
      c8_coast_overwrites_green_restricted.1 imgAllGreen 10 20 (fun _ _ => 0) 5 5 (by decide)⟩,
    ⟨by decide, by decide,
      c8_coast_overwrites_green_restricted.2.1 cfgC8 5 5 (by decide)⟩,
    c8_coast_overwrites_green_restricted.2.2 cfgC8 cfgC8 5 5 rfl rfl rfl⟩
